import Mathlib

/-!
Verification of the csv2latex conversion pipeline (src/convert.py).

Python floats are embedded as exact rationals: every value the pipeline
manipulates comes from parsing a terminating decimal literal, so it is a
rational with a power-of-ten denominator, represented exactly.  Rational
values are constructed through mkRat on numerator and denominator so that
every definition evaluates by kernel reduction; bridge lemmas relate the
constructions to ordinary field arithmetic on the rationals.
-/

/-- Fuel-driven base-10 logarithm on naturals: natLog10Aux fuel n counts how
often n can be divided by 10 before falling below 10. -/
def natLog10Aux : Nat → Nat → Nat
  | 0, _ => 0
  | fuel + 1, n => if n < 10 then 0 else natLog10Aux fuel (n / 10) + 1

/-- Floor of the base-10 logarithm of a positive natural number. -/
def natLog10 (n : Nat) : Nat := natLog10Aux n n

/-- Fuel-driven ceiling base-10 logarithm on naturals. -/
def natClog10Aux : Nat → Nat → Nat
  | 0, _ => 0
  | fuel + 1, n => if n ≤ 1 then 0 else natClog10Aux fuel ((n + 9) / 10) + 1

/-- Ceiling of the base-10 logarithm: least c with n ≤ 10 ^ c, for 2 ≤ n. -/
def natClog10 (n : Nat) : Nat := natClog10Aux n n

/-- Fuel-driven count of how many times p divides n. -/
def countFactorAux : Nat → Nat → Nat → Nat
  | 0, _, _ => 0
  | fuel + 1, p, n =>
    if 2 ≤ p ∧ n ≠ 0 ∧ p ∣ n then countFactorAux fuel p (n / p) + 1 else 0

/-- Multiplicity of the factor p in n. -/
def countFactor (p n : Nat) : Nat := countFactorAux n p n

/-- Splits a character list at every occurrence of the separator, like
Python str.split with a single-character separator. -/
def splitChar (sep : Char) : List Char → List (List Char)
  | [] => [[]]
  | c :: cs =>
    let r := splitChar sep cs
    if c = sep then [] :: r
    else
      match r with
      | [] => [[c]]
      | h :: t => (c :: h) :: t

/-- Whitespace test covering the characters Python str.strip removes that
can occur in the rendered output. -/
def isSpaceChar (c : Char) : Bool :=
  c = ' ' || c = '\t' || c = '\n' || c = '\r'

/-- Trims leading and trailing whitespace from a character list. -/
def trimAscii (l : List Char) : List Char :=
  ((l.dropWhile isSpaceChar).reverse.dropWhile isSpaceChar).reverse

/-- Multiplication of a rational by an integer power of ten, computed on the
numerator and denominator so that it evaluates by kernel reduction. -/
def shift10 (x : ℚ) (n : ℤ) : ℚ :=
  match n with
  | Int.ofNat m => mkRat (x.num * (10 ^ m : ℕ)) x.den
  | Int.negSucc m => mkRat x.num (x.den * 10 ^ (m + 1))

/-- Absolute value of a rational, computed on the numerator. -/
def qabs (x : ℚ) : ℚ := mkRat (x.num.natAbs : ℤ) x.den

/-- Rounding of a rational to the nearest integer with ties to even, the
rounding Python round performs; the fractional part is compared with one
half through the scaled integer 2 * (num - floor * den) against den. -/
def pyRoundHalfEven (q : ℚ) : ℤ :=
  let f := ⌊q⌋
  let r2 : ℤ := 2 * (q.num - f * q.den)
  if r2 < (q.den : ℤ) then f
  else if (q.den : ℤ) < r2 then f + 1
  else if f % 2 = 0 then f else f + 1

/-- Embedding of Python round(x, n): round to n decimal places, ties to
even. -/
def pyRound (x : ℚ) (n : ℤ) : ℚ :=
  shift10 (mkRat (pyRoundHalfEven (shift10 x n)) 1) (-n)

/-- Embedding of math.floor(math.log10(q)) for positive rational q. -/
def ratFloorLog10 (q : ℚ) : ℤ :=
  if 1 ≤ q then (natLog10 ⌊q⌋.toNat : ℤ)
  else -(natClog10 ⌈mkRat (q.den : ℤ) q.num.toNat⌉.toNat : ℤ)

/-- Embedding of round_sig from src/convert.py: significant-figure rounding,
with zero mapped to zero. -/
def round_sig (x : ℚ) (sig : ℤ) : ℚ :=
  if x = 0 then 0
  else pyRound x (sig - ratFloorLog10 (qabs x) - 1)

/-- Decimal rendering of a rational with a power-of-ten denominator, as
Python str renders the corresponding float value: at least one digit after
the point, no trailing zeros beyond the exact expansion, sign in front. -/
def formatFloat (q : ℚ) : String :=
  let sgn := if q.num < 0 then "-" else ""
  let a := qabs q
  let k := max (countFactor 2 a.den) (countFactor 5 a.den)
  let m := (shift10 a (k : ℤ)).num.toNat
  let ip := m / 10 ^ k
  let fp := m % 10 ^ k
  if k = 0 then sgn ++ toString ip ++ ".0"
  else
    let fs := toString fp
    sgn ++ toString ip ++ "." ++ String.mk (List.replicate (k - fs.length) '0') ++ fs

/-- Numeric value of a list of decimal digit characters. -/
def digitsToNat (l : List Char) : Nat :=
  l.foldl (fun a c => a * 10 + (c.toNat - 48)) 0

/-- Parses an unsigned decimal literal (digits, optionally with one point)
into a rational, as Python float() does on such input. -/
def parseUnsignedDec (cs : List Char) : Option ℚ :=
  match splitChar '.' cs with
  | [ds] =>
    if !ds.isEmpty && ds.all Char.isDigit then some (mkRat (digitsToNat ds : ℤ) 1)
    else none
  | [ip, fp] =>
    if (!ip.isEmpty || !fp.isEmpty) && ip.all Char.isDigit && fp.all Char.isDigit then
      some (mkRat (digitsToNat ip * 10 ^ fp.length + digitsToNat fp : ℤ) (10 ^ fp.length))
    else none
  | _ => none

/-- Parses a signed decimal literal into a rational. -/
def parseDecimal (s : String) : Option ℚ :=
  match s.data with
  | '-' :: rest => (parseUnsignedDec rest).map (fun q => -q)
  | '+' :: rest => parseUnsignedDec rest
  | cs => parseUnsignedDec cs

/-- Models locale.atof under a locale whose decimal separator is "." with
no grouping characters in the input: the decimal literal is parsed by
float(), and on failure a ValueError carrying only the offending string is
raised. -/
def atofDot (s : String) : Except String ℚ :=
  match parseDecimal s with
  | some q => Except.ok q
  | none => Except.error ("could not convert string to float: \x27" ++ s ++ "\x27")

/-- Column model of src/convert.py: ColumnDescription with the field
defaults of its constructor. -/
structure ColumnDescription where
  label : String
  numerical : Bool
  significant_digits : ℤ
  convert : Bool
  render : Bool
deriving DecidableEq

/-- Default column as built by ColumnDescription() with no arguments. -/
def defaultColumn : ColumnDescription :=
  { label := "", numerical := true, significant_digits := 3,
    convert := true, render := true }

/-- Table model of src/convert.py: TableDescription. -/
structure TableDescription where
  path : String
  border : Bool
  header_hline : Bool
  row_hline : Bool
  column_descriptions : List ColumnDescription
deriving DecidableEq

/-- Errors the renderer can raise: a generic exception carrying its message,
or the StopIteration raised by an exhausted reader. -/
inductive PyError where
  | exception (msg : String)
  | stopIteration
deriving DecidableEq

instance {ε α : Type} [DecidableEq ε] [DecidableEq α] : DecidableEq (Except ε α) :=
  fun a b =>
    match a, b with
    | Except.ok x, Except.ok y => decidable_of_iff (x = y) (by simp)
    | Except.ok _, Except.error _ => isFalse (by simp)
    | Except.error _, Except.ok _ => isFalse (by simp)
    | Except.error e, Except.error f => decidable_of_iff (e = f) (by simp)

/-- Message of the exception raised for a missing field, from line 136 of
src/convert.py. -/
def missingMsg (coli ri : Nat) (p : String) : String :=
  "Column Nr. " ++ toString coli ++ " doesn\x27t exist on line " ++ toString ri ++
    " in file " ++ p

/-- Drops the last two characters of a string, as the Python slice [:-2]
does. -/
def dropLast2 (s : String) : String := String.mk s.data.dropLast.dropLast

/-- Conversion of one fetched field by the body of the column loop (lines
142-151 of src/convert.py): a numerical column replaces an empty field by
"0.0", parses with the locale and rounds; failure prints the offending
value and re-raises the parse error.  The first component collects the
lines printed to standard output. -/
def convertField (atof : String → Except String ℚ) (c : ColumnDescription)
    (v : String) : List String × Except PyError String :=
  if c.numerical then
    let v2 := if v = "" then "0.0" else v
    match atof v2 with
    | Except.ok x => ([], Except.ok (formatFloat (round_sig x c.significant_digits)))
    | Except.error msg => (["Offending value: " ++ v2], Except.error (PyError.exception msg))
  else ([], Except.ok v)

/-- Body of the per-record loop of create_table (lines 130-153): walk the
column descriptions with the running index col_i, fetch line[col_i], raise
the missing-field exception when absent, skip non-rendered columns, convert
rendered fields and accumulate the row string, then close the row. -/
def rowLoopIdx (atof : String → Except String ℚ) (p : String) (ri : Nat)
    (line : List String) :
    List ColumnDescription → Nat → String → List String × Except PyError String
  | [], _, acc => ([], Except.ok (dropLast2 acc ++ " \\\\ \n"))
  | c :: cs, coli, acc =>
    match line.get? coli with
    | none => ([], Except.error (PyError.exception (missingMsg coli ri p)))
    | some v =>
      if !c.render then rowLoopIdx atof p ri line cs (coli + 1) acc
      else
        match convertField atof c v with
        | (pr, Except.error e) => (pr, Except.error e)
        | (pr, Except.ok s) =>
          let rest := rowLoopIdx atof p ri line cs (coli + 1) (acc ++ s ++ " & ")
          (pr ++ rest.1, rest.2)

/-- Variant of the per-record loop that walks the remaining fields in step
with the columns; line[col_i] is the head of the remaining fields.  Used to
reason about rowLoopIdx. -/
def rowWalk (atof : String → Except String ℚ) (p : String) (ri : Nat) :
    List ColumnDescription → List String → Nat → String →
      List String × Except PyError String
  | [], _, _, acc => ([], Except.ok (dropLast2 acc ++ " \\\\ \n"))
  | _ :: _, [], coli, _ => ([], Except.error (PyError.exception (missingMsg coli ri p)))
  | c :: cs, f :: fs, coli, acc =>
    if !c.render then rowWalk atof p ri cs fs (coli + 1) acc
    else
      match convertField atof c f with
      | (pr, Except.error e) => (pr, Except.error e)
      | (pr, Except.ok s) =>
        let rest := rowWalk atof p ri cs fs (coli + 1) (acc ++ s ++ " & ")
        (pr ++ rest.1, rest.2)

/-- Outer record loop of create_table (lines 127-155): renders every record
in order, tracking the 0-indexed row counter, accumulating printed lines and
stopping at the first failure. -/
def rowsLoop (atof : String → Except String ℚ) (p : String)
    (cols : List ColumnDescription) :
    List (List String) → Nat → List String × Except PyError String
  | [], _ => ([], Except.ok "")
  | line :: rest, ri =>
    match rowLoopIdx atof p ri line cols 0 "\t\t" with
    | (pr, Except.error e) => (pr, Except.error e)
    | (pr, Except.ok row) =>
      let rr := rowsLoop atof p cols rest (ri + 1)
      (pr ++ rr.1,
        match rr.2 with
        | Except.error e => Except.error e
        | Except.ok rs => Except.ok (row ++ rs))

/-- Header-cell accumulation loop (lines 118-122): append "label & " for
every rendered column. -/
def headerCells : List ColumnDescription → String → String
  | [], acc => acc
  | c :: cs, acc =>
    if !c.render then headerCells cs acc
    else headerCells cs (acc ++ c.label ++ " & ")

/-- Header row of the table (lines 118-125): cells, closing marker, and the
rule after the header when header_hline is set. -/
def headerString (cols : List ColumnDescription) (hh : Bool) : String :=
  let h := dropLast2 (headerCells cols "") ++ " \\\\ \n"
  if hh then h ++ "\t\\hline" else h

/-- Rendered-column count (lines 112-115). -/
def colCountRendered : List ColumnDescription → Nat
  | [] => 0
  | c :: cs => (if c.render then 1 else 0) + colCountRendered cs

/-- String repetition, as Python int * str. -/
def strRepeat (n : Nat) (s : String) : String := String.join (List.replicate n s)

/-- Column alignment specification (line 116): one "|l" per rendered column
and a final "|". -/
def columnString (cols : List ColumnDescription) : String :=
  strRepeat (colCountRendered cols) "|l" ++ "|"

/-- Final path component, as os.path.split(p)[1] on a POSIX path. -/
def pyBasename (p : String) : String :=
  String.mk ((splitChar '/' p.data).getLastD [])

/-- Stem before the extension, as os.path.splitext(s)[0] for file names
whose extension dot is not the leading character. -/
def pySplitextStem (s : String) : String :=
  let parts := splitChar '.' s.data
  if parts.length ≤ 1 then s
  else String.mk (List.intercalate [Char.ofNat 46] parts.dropLast)

/-- Caption of the table (line 161): stem of the file name with underscores
replaced by spaces. -/
def pyCaption (p : String) : String :=
  String.mk ((pySplitextStem (pyBasename p)).data.map
    (fun ch => if ch = '_' then ' ' else ch))

/-- The TABLE template of src/convert.py (lines 91-103) after format
substitution of the alignment specification, header block, row block,
caption and file name. -/
def tableTemplate (cs hs rows cap fn : String) : String :=
  "\n\\begin\x7btable\x7d[H]\n    \\centering\n    \\begin\x7btabular\x7d\x7b" ++ cs ++
    "\x7d\n        \\hline\n        " ++ hs ++ "\n        " ++ rows ++
    "\n        \\hline\n    \\end\x7btabular\x7d\n    \\caption\x7b" ++ cap ++
    "\x7d\n    \\label\x7btable:" ++ fn ++ "\x7d\n\\end\x7btable\x7d\n"

/-- Rendering of one table from its already-read records (lines 112-165):
alignment specification, header, all data rows, and the filled template.
The first component collects the lines printed to standard output. -/
def renderTable (atof : String → Except String ℚ) (td : TableDescription)
    (recs : List (List String)) : List String × Except PyError String :=
  match rowsLoop atof td.path td.column_descriptions recs 0 with
  | (pr, Except.error e) => (pr, Except.error e)
  | (pr, Except.ok rows) =>
    (pr, Except.ok (tableTemplate (columnString td.column_descriptions)
      (headerString td.column_descriptions td.header_hline) rows
      (pyCaption td.path) (pyBasename td.path)))

/-- Embedding of create_table (lines 105-165).  The csv reader is modelled
by the list of records it yields; next(reader) on an empty reader raises
StopIteration. -/
def create_table (atof : String → Except String ℚ) (td : TableDescription)
    (records : List (List String)) (skip_header : Bool) :
    List String × Except PyError String :=
  match skip_header, records with
  | true, [] => ([], Except.error PyError.stopIteration)
  | true, _ :: rest => renderTable atof td rest
  | false, _ => renderTable atof td records

/-- Fuel-driven csv splitter modelling csv.reader with the default dialect
on inputs using newline-terminated records: fields split at the delimiter,
a field starting with the quote character is quoted until the closing
quote, a doubled quote inside a quoted field is an escaped quote, and a
blank line yields an empty record. -/
def csvAux (d q : Char) : Nat → Bool → List Char → List Char → List String →
    List (List String)
  | 0, _, _, _, _ => []
  | _ + 1, false, [], [], [] => []
  | _ + 1, false, [], cur, fields => [fields ++ [String.mk cur]]
  | _ + 1, true, [], cur, fields => [fields ++ [String.mk cur]]
  | fuel + 1, false, c :: rest, cur, fields =>
    if c = q ∧ cur = [] then csvAux d q fuel true rest cur fields
    else if c = d then csvAux d q fuel false rest [] (fields ++ [String.mk cur])
    else if c = '\n' then
      (if fields = [] ∧ cur = [] then [] else fields ++ [String.mk cur]) ::
        csvAux d q fuel false rest [] []
    else csvAux d q fuel false rest (cur ++ [c]) fields
  | fuel + 1, true, c :: rest, cur, fields =>
    if c = q then
      match rest with
      | c2 :: rest2 =>
        if c2 = q then csvAux d q fuel true rest2 (cur ++ [q]) fields
        else csvAux d q fuel false rest cur fields
      | [] => csvAux d q fuel false [] cur fields
    else csvAux d q fuel true rest (cur ++ [c]) fields

/-- Record list produced by csv.reader on the given file content. -/
def csvParse (content : String) (d q : Char) : List (List String) :=
  csvAux d q (2 * content.data.length + 2) false content.data [] []

/-- Values a column-option mapping can carry, typed as the configuration
format of the specification declares them. -/
inductive ConfigValue where
  | str (s : String)
  | bool (b : Bool)
  | int (n : ℤ)
deriving DecidableEq

/-- Embedding of setattr(cd, k, v) in parse_conversion_description (line
187): a recognized key overwrites the attribute of that name; any other key
stores an attribute the pipeline never reads, leaving the description
unchanged, with no error and no warning. -/
def setColumnAttr (cd : ColumnDescription) (kv : String × ConfigValue) : ColumnDescription :=
  if kv.1 = "label" then
    match kv.2 with
    | ConfigValue.str s => { cd with label := s }
    | _ => cd
  else if kv.1 = "numerical" then
    match kv.2 with
    | ConfigValue.bool b => { cd with numerical := b }
    | _ => cd
  else if kv.1 = "significant_digits" then
    match kv.2 with
    | ConfigValue.int n => { cd with significant_digits := n }
    | _ => cd
  else if kv.1 = "convert" then
    match kv.2 with
    | ConfigValue.bool b => { cd with convert := b }
    | _ => cd
  else if kv.1 = "render" then
    match kv.2 with
    | ConfigValue.bool b => { cd with render := b }
    | _ => cd
  else cd

/-- Embedding of the per-column part of parse_conversion_description (lines
181-191): start from the constructor defaults and apply every key of the
mapping in order. -/
def parse_column (opts : List (String × ConfigValue)) : ColumnDescription :=
  opts.foldl setColumnAttr defaultColumn

/-- The option keys the column model recognizes. -/
def recognizedKeys : List String :=
  ["label", "numerical", "significant_digits", "convert", "render"]


/-- Concatenation of a list of strings in order. -/
def strConcat : List String → String
  | [] => ""
  | a :: l => a ++ strConcat l

/-- Cells of one data row as the loop accumulates them: every field
followed by the separator " & ". -/
def ampCells (l : List String) : String := strConcat (l.map (fun f => f ++ " & "))

/-- Cells of one data row joined by " & " with no trailing separator. -/
def interAmp : List String → String
  | [] => ""
  | [f] => f
  | f :: fs => f ++ " & " ++ interAmp fs

/-- Fields of a record at the positions of rendered columns, in order. -/
def selectRendered (cols : List ColumnDescription) (line : List String) : List String :=
  ((cols.zip line).filter (fun cv => cv.1.render)).map (fun cv => cv.2)

/-! ### The worked example of the specification -/

/-- Table description of the worked example: data.csv under workdir ".",
column A numerical with two significant digits, column B textual. -/
def exampleTd : TableDescription :=
  { path := "./data.csv", border := true, header_hline := true, row_hline := false,
    column_descriptions :=
      [ { label := "A", numerical := true, significant_digits := 2, convert := true,
          render := true },
        { label := "B", numerical := false, significant_digits := 3, convert := true,
          render := true } ] }

/-- Records of the worked example, as csv.reader yields them from the file
content with delimiter ";" and quote character the double quote. -/
def exampleRecords : List (List String) := csvParse "1234.5;hello\n0;world\n" ';' '"'

/-- Output create_table produces on the worked example. -/
def exampleOutput : String :=
  tableTemplate "|l|l|" "A & B  \\\\ \n\t\\hline"
    "\t\t1200.0 & hello  \\\\ \n\t\t0.0 & world  \\\\ \n" "data" "data.csv"

/-! ### Basic lemmas about the configuration loader -/

theorem parse_column_append (opts : List (String × ConfigValue)) (x : String × ConfigValue) :
    parse_column (opts ++ [x]) = setColumnAttr (parse_column opts) x := by
  simp [parse_column, List.foldl_append]

/-- C2, counterexample: on the worked example the rendered output contains
no line reading "1200 & hello \x5c\x5c" up to surrounding whitespace; the
numerical cell is rendered "1200.0", so the claimed data row does not
occur. -/
theorem create_table_example_counterexample :
    (create_table atofDot exampleTd exampleRecords false).2 = Except.ok exampleOutput ∧
    ((splitChar '\n' exampleOutput.data).map trimAscii).contains
      "1200 & hello \\\\".data = false :=
  ⟨rfl, rfl⟩

/-- C2, amended: on the worked example create_table prints nothing and
returns the full table whose header row is "A & B  \x5c\x5c" and whose data
rows are "1200.0 & hello  \x5c\x5c" and "0.0 & world  \x5c\x5c" (each cell
separator leaves two spaces before the row-end marker, and the rounded
numerical cells render with a trailing ".0" as Python str does on a float
of integral value). -/
theorem create_table_example_amended :
    create_table atofDot exampleTd exampleRecords false = ([], Except.ok exampleOutput) :=
  rfl

/-- C6: in a numerical column an empty field is replaced by the literal
"0.0"; whenever the locale parses "0.0" to the value zero the cell renders
as "0.0" after rounding (for every significant-digit count) and no
conversion error is raised. -/
theorem numerical_empty_field_zero (atof : String → Except String ℚ)
    (c : ColumnDescription) (hc : c.numerical = true)
    (h0 : atof "0.0" = Except.ok 0) :
    convertField atof c "" = ([], Except.ok "0.0") := by
  have hr : round_sig 0 c.significant_digits = 0 := by simp [round_sig]
  simp [convertField, hc, h0, hr]
  rfl

/-- Witness for C6 at a concrete numerical column and the dot-locale
parser. -/
theorem numerical_empty_field_zero_witness :
    ((⟨"A", true, 7, true, true⟩ : ColumnDescription).numerical = true ∧
      atofDot "0.0" = Except.ok 0) ∧
    convertField atofDot ⟨"A", true, 7, true, true⟩ "" = ([], Except.ok "0.0") :=
  ⟨⟨rfl, by decide⟩,
    numerical_empty_field_zero atofDot ⟨"A", true, 7, true, true⟩ rfl (by decide)⟩

/-- C8: the string create_table returns does not depend on the border or
row_hline flags of the table description; all four combinations produce
identical output on every fixed record list and parameters. -/
theorem border_row_hline_irrelevant (atof : String → Except String ℚ)
    (td : TableDescription) (records : List (List String)) (sh b r : Bool) :
    create_table atof { td with border := b, row_hline := r } records sh =
      create_table atof td records sh :=
  rfl

/-- C10: with skip_header set and a csv file yielding no records at all,
the unguarded next(reader) raises StopIteration, so create_table fails
instead of returning a zero-row table fragment. -/
theorem skip_header_empty_records_error (atof : String → Except String ℚ)
    (td : TableDescription) :
    create_table atof td [] true = ([], Except.error PyError.stopIteration) :=
  rfl

/-- C9: the loader starts from the constructor defaults and overwrites, for
each key present in the mapping in order, the attribute of that name with
the value of the key; a key naming no recognized option leaves the column
description unchanged and raises no error and no warning. -/
theorem parse_column_defaults_overwrite_silent :
    parse_column [] = defaultColumn ∧
    (∀ opts k v, k ∉ recognizedKeys →
      parse_column (opts ++ [(k, v)]) = parse_column opts) ∧
    (∀ opts s, (parse_column (opts ++ [("label", ConfigValue.str s)])).label = s) ∧
    (∀ opts b, (parse_column (opts ++ [("numerical", ConfigValue.bool b)])).numerical = b) ∧
    (∀ opts n, (parse_column
      (opts ++ [("significant_digits", ConfigValue.int n)])).significant_digits = n) ∧
    (∀ opts b, (parse_column (opts ++ [("convert", ConfigValue.bool b)])).convert = b) ∧
    (∀ opts b, (parse_column (opts ++ [("render", ConfigValue.bool b)])).render = b) := by
  refine ⟨rfl, ?_, ?_, ?_, ?_, ?_, ?_⟩
  · intro opts k v hk
    rw [parse_column_append]
    simp [recognizedKeys] at hk
    obtain ⟨h1, h2, h3, h4, h5⟩ := hk
    simp [setColumnAttr, h1, h2, h3, h4, h5]
  · intro opts s
    rw [parse_column_append]
    simp [setColumnAttr]
  · intro opts b
    rw [parse_column_append]
    simp [setColumnAttr]
  · intro opts n
    rw [parse_column_append]
    simp [setColumnAttr]
  · intro opts b
    rw [parse_column_append]
    simp [setColumnAttr]
  · intro opts b
    rw [parse_column_append]
    simp [setColumnAttr]

/-- Witness for C9: a mapping whose key names no recognized option is
accepted silently and leaves the description at its defaults. -/
theorem parse_column_defaults_overwrite_silent_witness :
    ("typo" ∉ recognizedKeys) ∧
    parse_column [("typo", ConfigValue.int 1)] = parse_column [] :=
  ⟨by decide,
    parse_column_defaults_overwrite_silent.2.1 [] "typo" (ConfigValue.int 1) (by decide)⟩

/-! ### Properties of the base-10 logarithm helpers -/

theorem natClog10Aux_one (fuel : Nat) : natClog10Aux fuel 1 = 0 := by
  cases fuel <;> simp [natClog10Aux]

theorem natLog10Aux_spec (fuel : Nat) :
    ∀ n, 1 ≤ n → n ≤ fuel →
      10 ^ natLog10Aux fuel n ≤ n ∧ n < 10 ^ (natLog10Aux fuel n + 1) := by
  induction fuel with
  | zero => intro n h1 h2; omega
  | succ f ih =>
    intro n h1 h2
    by_cases hn : n < 10
    · simp only [natLog10Aux, if_pos hn]
      constructor
      · simpa using h1
      · simpa using hn
    · simp only [natLog10Aux, if_neg hn]
      have hm1 : 1 ≤ n / 10 := by omega
      have hm2 : n / 10 ≤ f := by omega
      obtain ⟨ha, hb⟩ := ih (n / 10) hm1 hm2
      constructor
      · calc 10 ^ (natLog10Aux f (n / 10) + 1)
            = 10 * 10 ^ natLog10Aux f (n / 10) := by ring
          _ ≤ 10 * (n / 10) := by omega
          _ ≤ n := by omega
      · calc n < 10 * (n / 10) + 10 := by omega
          _ ≤ 10 * 10 ^ (natLog10Aux f (n / 10) + 1) := by omega
          _ = 10 ^ (natLog10Aux f (n / 10) + 1 + 1) := by ring

theorem natLog10_spec (n : Nat) (h : 1 ≤ n) :
    10 ^ natLog10 n ≤ n ∧ n < 10 ^ (natLog10 n + 1) :=
  natLog10Aux_spec n n h le_rfl

theorem natClog10Aux_spec (fuel : Nat) :
    ∀ n, 2 ≤ n → n ≤ fuel →
      n ≤ 10 ^ natClog10Aux fuel n ∧ 10 ^ (natClog10Aux fuel n - 1) < n := by
  induction fuel with
  | zero => intro n h1 h2; omega
  | succ f ih =>
    intro n h1 h2
    have hne : ¬ n ≤ 1 := by omega
    simp only [natClog10Aux, if_neg hne]
    by_cases hm : (n + 9) / 10 ≤ 1
    · have hm1 : (n + 9) / 10 = 1 := by omega
      rw [hm1, natClog10Aux_one]
      simp only [pow_one, Nat.add_sub_cancel, pow_zero]
      omega
    · have hm2 : 2 ≤ (n + 9) / 10 := by omega
      have hm3 : (n + 9) / 10 ≤ f := by omega
      obtain ⟨ha, hb⟩ := ih ((n + 9) / 10) hm2 hm3
      have hc1 : 1 ≤ natClog10Aux f ((n + 9) / 10) := by
        by_contra hc
        have h0 : natClog10Aux f ((n + 9) / 10) = 0 := by omega
        rw [h0] at ha
        simp at ha
        omega
      have hp1 : 10 ^ natClog10Aux f ((n + 9) / 10)
          = 10 * 10 ^ (natClog10Aux f ((n + 9) / 10) - 1) := by
        calc 10 ^ natClog10Aux f ((n + 9) / 10)
            = 10 ^ (natClog10Aux f ((n + 9) / 10) - 1 + 1) := by congr 1; omega
          _ = 10 * 10 ^ (natClog10Aux f ((n + 9) / 10) - 1) := by ring
      have hp2 : 10 ^ (natClog10Aux f ((n + 9) / 10) + 1)
          = 10 * 10 ^ natClog10Aux f ((n + 9) / 10) := by ring
      constructor
      · omega
      · have hp3 : 10 ^ (natClog10Aux f ((n + 9) / 10) + 1 - 1)
            = 10 ^ natClog10Aux f ((n + 9) / 10) := by congr 1
        rw [hp3, hp1]
        omega

theorem natClog10_spec (n : Nat) (h : 2 ≤ n) :
    n ≤ 10 ^ natClog10 n ∧ 10 ^ (natClog10 n - 1) < n :=
  natClog10Aux_spec n n h le_rfl

/-! ### Bridges from the mkRat-based arithmetic to field arithmetic -/

theorem mkRat_intCast (k : ℤ) : mkRat k 1 = (k : ℚ) := by
  rw [Rat.mkRat_eq_div]
  simp

theorem shift10_eq (x : ℚ) (n : ℤ) : shift10 x n = x * (10 : ℚ) ^ n := by
  have hden : ((x.den : ℚ)) ≠ 0 := by
    have := x.den_nz
    exact_mod_cast this
  cases n with
  | ofNat m =>
    show mkRat (x.num * (10 ^ m : ℕ)) x.den = x * (10 : ℚ) ^ (Int.ofNat m)
    rw [Rat.mkRat_eq_div]
    rw [show (Int.ofNat m) = (m : ℤ) from rfl, zpow_natCast]
    push_cast
    rw [mul_div_right_comm, Rat.num_div_den]
  | negSucc m =>
    show mkRat x.num (x.den * 10 ^ (m + 1)) = x * (10 : ℚ) ^ (Int.negSucc m)
    rw [Rat.mkRat_eq_div, zpow_negSucc]
    push_cast
    rw [div_mul_eq_div_div, Rat.num_div_den, div_eq_mul_inv]

theorem qabs_eq (x : ℚ) : qabs x = |x| := by
  unfold qabs
  rw [Rat.mkRat_eq_div]
  have h1 : ((x.num.natAbs : ℤ) : ℚ) = |(x.num : ℚ)| := by
    push_cast
    ring
  rw [h1]
  conv_rhs => rw [← Rat.num_div_den x]
  rw [abs_div]
  congr 1
  exact (abs_of_nonneg (by positivity)).symm

theorem ratFloorLog10_spec (q : ℚ) (hq : 0 < q) :
    (10 : ℚ) ^ ratFloorLog10 q ≤ q ∧ q < (10 : ℚ) ^ (ratFloorLog10 q + 1) := by
  unfold ratFloorLog10
  split_ifs with h1
  · have hfl : 1 ≤ ⌊q⌋ := Int.le_floor.mpr (by exact_mod_cast h1)
    have hn1 : 1 ≤ ⌊q⌋.toNat := by omega
    have hnq : ((⌊q⌋.toNat : ℕ) : ℚ) ≤ q := by
      have he : ((⌊q⌋.toNat : ℕ) : ℤ) = ⌊q⌋ := Int.toNat_of_nonneg (by omega)
      have : ((⌊q⌋.toNat : ℕ) : ℚ) = ((⌊q⌋ : ℤ) : ℚ) := by exact_mod_cast congrArg (fun z : ℤ => (z : ℚ)) he
      rw [this]
      exact Int.floor_le q
    obtain ⟨ha, hb⟩ := natLog10_spec ⌊q⌋.toNat hn1
    constructor
    · rw [zpow_natCast]
      calc (10 : ℚ) ^ natLog10 ⌊q⌋.toNat = ((10 ^ natLog10 ⌊q⌋.toNat : ℕ) : ℚ) := by
            push_cast
            ring
        _ ≤ ((⌊q⌋.toNat : ℕ) : ℚ) := by exact_mod_cast ha
        _ ≤ q := hnq
    · rw [show ((natLog10 ⌊q⌋.toNat : ℕ) : ℤ) + 1 = ((natLog10 ⌊q⌋.toNat + 1 : ℕ) : ℤ) by push_cast; ring]
      rw [zpow_natCast]
      have hq2 : q < ((⌊q⌋.toNat : ℕ) : ℚ) + 1 := by
        have he : ((⌊q⌋.toNat : ℕ) : ℤ) = ⌊q⌋ := Int.toNat_of_nonneg (by omega)
        have heq : ((⌊q⌋.toNat : ℕ) : ℚ) = ((⌊q⌋ : ℤ) : ℚ) := by exact_mod_cast congrArg (fun z : ℤ => (z : ℚ)) he
        rw [heq]
        exact Int.lt_floor_add_one q
      calc q < ((⌊q⌋.toNat : ℕ) : ℚ) + 1 := hq2
        _ ≤ ((10 ^ (natLog10 ⌊q⌋.toNat + 1) : ℕ) : ℚ) := by exact_mod_cast hb
        _ = (10 : ℚ) ^ (natLog10 ⌊q⌋.toNat + 1) := by push_cast; ring
  · have hq1 : q < 1 := not_le.mp h1
    have hnum : 0 < q.num := Rat.num_pos.mpr hq
    have hqinv : mkRat (q.den : ℤ) q.num.toNat = q⁻¹ := by
      rw [Rat.mkRat_eq_div]
      have ht : ((q.num.toNat : ℕ) : ℚ) = ((q.num : ℤ) : ℚ) := by
        exact_mod_cast congrArg (fun z : ℤ => (z : ℚ)) (Int.toNat_of_nonneg (le_of_lt hnum))
      rw [ht]
      conv_rhs => rw [← Rat.num_div_den q]
      rw [inv_div]
      push_cast
      ring
    rw [hqinv]
    have hr1 : (1 : ℚ) < q⁻¹ := by
      by_contra hcon
      push_neg at hcon
      have h2 := mul_le_mul_of_nonneg_left hcon (le_of_lt hq)
      rw [mul_inv_cancel₀ (ne_of_gt hq), mul_one] at h2
      exact absurd h2 (not_le.mpr hq1)
    have hrpos : (0 : ℚ) < q⁻¹ := inv_pos.mpr hq
    have hceil2 : 2 ≤ ⌈q⁻¹⌉ := by
      have := Int.lt_ceil.mpr (show ((1 : ℤ) : ℚ) < q⁻¹ by exact_mod_cast hr1)
      omega
    have hm2 : 2 ≤ ⌈q⁻¹⌉.toNat := by omega
    have hmQ : ((⌈q⁻¹⌉.toNat : ℕ) : ℚ) = ((⌈q⁻¹⌉ : ℤ) : ℚ) := by
      exact_mod_cast congrArg (fun z : ℤ => (z : ℚ)) (Int.toNat_of_nonneg (by omega))
    obtain ⟨ha, hb⟩ := natClog10_spec ⌈q⁻¹⌉.toNat hm2
    have hc1 : 1 ≤ natClog10 ⌈q⁻¹⌉.toNat := by
      by_contra hcc
      have h0 : natClog10 ⌈q⁻¹⌉.toNat = 0 := by omega
      rw [h0] at ha
      simp at ha
      omega
    have hrle : q⁻¹ ≤ ((10 ^ natClog10 ⌈q⁻¹⌉.toNat : ℕ) : ℚ) := by
      calc q⁻¹ ≤ ((⌈q⁻¹⌉ : ℤ) : ℚ) := Int.le_ceil _
        _ = ((⌈q⁻¹⌉.toNat : ℕ) : ℚ) := hmQ.symm
        _ ≤ _ := by exact_mod_cast ha
    have hrgt : ((10 ^ (natClog10 ⌈q⁻¹⌉.toNat - 1) : ℕ) : ℚ) < q⁻¹ := by
      have hb2 : ((10 ^ (natClog10 ⌈q⁻¹⌉.toNat - 1) : ℕ) : ℚ) + 1 ≤ ((⌈q⁻¹⌉.toNat : ℕ) : ℚ) := by
        exact_mod_cast hb
      have hc2 : ((⌈q⁻¹⌉ : ℤ) : ℚ) < q⁻¹ + 1 := Int.ceil_lt_add_one q⁻¹
      rw [← hmQ] at hc2
      linarith
    constructor
    · rw [zpow_neg, zpow_natCast]
      have h2 : ((10 : ℚ) ^ natClog10 ⌈q⁻¹⌉.toNat)⁻¹ ≤ (q⁻¹)⁻¹ := by
        apply inv_anti₀ (inv_pos.mpr hq)
        calc q⁻¹ ≤ ((10 ^ natClog10 ⌈q⁻¹⌉.toNat : ℕ) : ℚ) := hrle
          _ = (10 : ℚ) ^ natClog10 ⌈q⁻¹⌉.toNat := by push_cast; ring
      rwa [inv_inv] at h2
    · rw [show -((natClog10 ⌈q⁻¹⌉.toNat : ℕ) : ℤ) + 1
          = -(((natClog10 ⌈q⁻¹⌉.toNat - 1 : ℕ) : ℕ) : ℤ) by omega]
      rw [zpow_neg, zpow_natCast]
      have h2 : (q⁻¹)⁻¹ < ((10 : ℚ) ^ (natClog10 ⌈q⁻¹⌉.toNat - 1))⁻¹ := by
        apply inv_strictAnti₀ (by positivity)
        calc (10 : ℚ) ^ (natClog10 ⌈q⁻¹⌉.toNat - 1)
            = ((10 ^ (natClog10 ⌈q⁻¹⌉.toNat - 1) : ℕ) : ℚ) := by push_cast; ring
          _ < q⁻¹ := hrgt
      rwa [inv_inv] at h2

theorem pyRoundHalfEven_spec (q : ℚ) :
    |(pyRoundHalfEven q : ℚ) - q| ≤ 1 / 2 ∧
      (Int.fract q = 1 / 2 → pyRoundHalfEven q % 2 = 0) := by
  have hden : (0 : ℚ) < (q.den : ℚ) := by
    have hp : 0 < q.den := Nat.pos_of_ne_zero q.den_nz
    exact_mod_cast hp
  have hfr : Int.fract q = ((q.num - ⌊q⌋ * q.den : ℤ) : ℚ) / (q.den : ℚ) := by
    rw [Int.fract]
    push_cast
    rw [sub_div, Rat.num_div_den, mul_div_assoc, div_self (ne_of_gt hden), mul_one]
  have hkey : Int.fract q * (q.den : ℚ) = (q.num : ℚ) - (⌊q⌋ : ℚ) * (q.den : ℚ) := by
    rw [hfr, div_mul_cancel₀ _ (ne_of_gt hden)]
    push_cast
    ring
  have hf0 : (0 : ℚ) ≤ Int.fract q := Int.fract_nonneg q
  have hf1 : Int.fract q < 1 := Int.fract_lt_one q
  have hfq : Int.fract q = q - (⌊q⌋ : ℚ) := rfl
  simp only [pyRoundHalfEven]
  split_ifs with h1 h2 h3
  · have hc : ((2 * (q.num - ⌊q⌋ * q.den) : ℤ) : ℚ) < (q.den : ℚ) := by exact_mod_cast h1
    push_cast at hc
    have h2d : 2 * (Int.fract q * (q.den : ℚ)) < (q.den : ℚ) := by
      rw [hkey]
      linarith
    have hlt : Int.fract q < 1 / 2 := by nlinarith
    refine ⟨?_, ?_⟩
    · rw [abs_sub_comm, ← hfq, abs_of_nonneg hf0]
      linarith
    · intro he
      rw [he] at hlt
      norm_num at hlt
  · have hc : (q.den : ℚ) < ((2 * (q.num - ⌊q⌋ * q.den) : ℤ) : ℚ) := by exact_mod_cast h2
    push_cast at hc
    have h2d : (q.den : ℚ) < 2 * (Int.fract q * (q.den : ℚ)) := by
      rw [hkey]
      linarith
    have hgt : 1 / 2 < Int.fract q := by nlinarith
    refine ⟨?_, ?_⟩
    · have habs : ((⌊q⌋ + 1 : ℤ) : ℚ) - q = 1 - Int.fract q := by
        rw [hfq]
        push_cast
        ring
      rw [habs, abs_of_nonneg (by linarith)]
      linarith
    · intro he
      rw [he] at hgt
      norm_num at hgt
  · have hc : ((2 * (q.num - ⌊q⌋ * q.den) : ℤ) : ℚ) = (q.den : ℚ) := by
      exact_mod_cast le_antisymm (not_lt.mp h2) (not_lt.mp h1)
    push_cast at hc
    have h2d : 2 * (Int.fract q * (q.den : ℚ)) = (q.den : ℚ) := by
      rw [hkey]
      linarith
    have heq : Int.fract q = 1 / 2 := le_antisymm (by nlinarith) (by nlinarith)
    refine ⟨?_, ?_⟩
    · rw [abs_sub_comm, ← hfq, abs_of_nonneg hf0]
      linarith
    · intro _
      exact h3
  · have hc : ((2 * (q.num - ⌊q⌋ * q.den) : ℤ) : ℚ) = (q.den : ℚ) := by
      exact_mod_cast le_antisymm (not_lt.mp h2) (not_lt.mp h1)
    push_cast at hc
    have h2d : 2 * (Int.fract q * (q.den : ℚ)) = (q.den : ℚ) := by
      rw [hkey]
      linarith
    have heq : Int.fract q = 1 / 2 := le_antisymm (by nlinarith) (by nlinarith)
    refine ⟨?_, ?_⟩
    · have habs : ((⌊q⌋ + 1 : ℤ) : ℚ) - q = 1 - Int.fract q := by
        rw [hfq]
        push_cast
        ring
      rw [habs, abs_of_nonneg (by linarith)]
      linarith
    · intro _
      omega

theorem pyRound_spec (x : ℚ) (n : ℤ) :
    ∃ k : ℤ, pyRound x n = (k : ℚ) * (10 : ℚ) ^ (-n) ∧
      |pyRound x n - x| ≤ 1 / 2 * (10 : ℚ) ^ (-n) ∧
      (Int.fract (x * (10 : ℚ) ^ n) = 1 / 2 → k % 2 = 0) := by
  refine ⟨pyRoundHalfEven (shift10 x n), ?_, ?_, ?_⟩
  · rw [pyRound, shift10_eq, mkRat_intCast]
  · obtain ⟨hd, _⟩ := pyRoundHalfEven_spec (shift10 x n)
    rw [pyRound, shift10_eq, mkRat_intCast, shift10_eq] at *
    have h10 : (0 : ℚ) < (10 : ℚ) ^ (-n) := by positivity
    have hx : x = x * (10 : ℚ) ^ n * (10 : ℚ) ^ (-n) := by
      rw [mul_assoc, ← zpow_add₀ (by norm_num : (10 : ℚ) ≠ 0)]
      simp
    calc |(pyRoundHalfEven (x * (10 : ℚ) ^ n) : ℚ) * (10 : ℚ) ^ (-n) - x|
        = |((pyRoundHalfEven (x * (10 : ℚ) ^ n) : ℚ) - x * (10 : ℚ) ^ n) * (10 : ℚ) ^ (-n)| := by
          rw [sub_mul]
          congr 1
          rw [← hx]
      _ = |(pyRoundHalfEven (x * (10 : ℚ) ^ n) : ℚ) - x * (10 : ℚ) ^ n| * (10 : ℚ) ^ (-n) := by
          rw [abs_mul, abs_of_nonneg (le_of_lt h10)]
      _ ≤ 1 / 2 * (10 : ℚ) ^ (-n) :=
          mul_le_mul_of_nonneg_right hd (le_of_lt h10)
  · intro ht
    obtain ⟨_, he⟩ := pyRoundHalfEven_spec (shift10 x n)
    rw [shift10_eq]
    rw [shift10_eq] at he
    exact he ht

/-- C1: for nonzero x, round_sig x s rounds x to d = s - 1 - floor(log10(abs x))
decimal places: the exponent characterizes floor(log10(abs x)) exactly, the
result is an integer multiple of 10 ^ (-d) within half of that spacing of x,
ties going to an even multiple as Python round does, and zero is returned
unchanged for every digit count. -/
theorem round_sig_significant_figures (x : ℚ) (s : ℤ) (hx : x ≠ 0) :
    ((10 : ℚ) ^ ratFloorLog10 |x| ≤ |x| ∧ |x| < (10 : ℚ) ^ (ratFloorLog10 |x| + 1)) ∧
    (∃ k : ℤ,
      round_sig x s = (k : ℚ) * (10 : ℚ) ^ (-(s - ratFloorLog10 |x| - 1)) ∧
      |round_sig x s - x| ≤ 1 / 2 * (10 : ℚ) ^ (-(s - ratFloorLog10 |x| - 1)) ∧
      (Int.fract (x * (10 : ℚ) ^ (s - ratFloorLog10 |x| - 1)) = 1 / 2 → k % 2 = 0)) ∧
    round_sig 0 s = 0 := by
  have hpos : 0 < |x| := abs_pos.mpr hx
  refine ⟨ratFloorLog10_spec |x| hpos, ?_, by simp [round_sig]⟩
  have hrs : round_sig x s = pyRound x (s - ratFloorLog10 |x| - 1) := by
    unfold round_sig
    rw [if_neg hx, qabs_eq]
  rw [hrs]
  exact pyRound_spec x (s - ratFloorLog10 |x| - 1)

/-- Witness for C1 at x = 1234.5 and s = 2. -/
theorem round_sig_significant_figures_witness :
    (mkRat 2469 2 : ℚ) ≠ 0 ∧
    (((10 : ℚ) ^ ratFloorLog10 |(mkRat 2469 2 : ℚ)| ≤ |(mkRat 2469 2 : ℚ)| ∧
        |(mkRat 2469 2 : ℚ)| < (10 : ℚ) ^ (ratFloorLog10 |(mkRat 2469 2 : ℚ)| + 1)) ∧
      (∃ k : ℤ,
        round_sig (mkRat 2469 2) 2
          = (k : ℚ) * (10 : ℚ) ^ (-(2 - ratFloorLog10 |(mkRat 2469 2 : ℚ)| - 1)) ∧
        |round_sig (mkRat 2469 2) 2 - mkRat 2469 2|
          ≤ 1 / 2 * (10 : ℚ) ^ (-(2 - ratFloorLog10 |(mkRat 2469 2 : ℚ)| - 1)) ∧
        (Int.fract (mkRat 2469 2 * (10 : ℚ) ^ (2 - ratFloorLog10 |(mkRat 2469 2 : ℚ)| - 1))
            = 1 / 2 → k % 2 = 0)) ∧
      round_sig 0 2 = 0) :=
  ⟨by decide, round_sig_significant_figures (mkRat 2469 2) 2 (by decide)⟩

/-! ### String facts -/

theorem strExt (s t : String) (h : s.data = t.data) : s = t := by
  cases s
  cases t
  exact congrArg String.mk h

theorem dropLast2_append_sep (y : String) : dropLast2 (y ++ " & ") = y ++ " " := by
  apply strExt
  show (y.data ++ [' ', '&', ' ']).dropLast.dropLast = y.data ++ [' ']
  have h : y.data ++ [' ', '&', ' '] = ((y.data ++ [' ']) ++ ['&']) ++ [' '] := by simp
  rw [h, List.dropLast_concat, List.dropLast_concat]

theorem interAmp_amp (l : List String) (hl : l ≠ []) :
    ampCells l = (interAmp l ++ " & ") := by
  induction l with
  | nil => exact absurd rfl hl
  | cons f fs ih =>
    cases fs with
    | nil =>
      apply strExt
      simp [ampCells, strConcat, interAmp, String.data_append]
    | cons g gs =>
      apply strExt
      have hd := congrArg String.data (ih (by simp))
      simp only [ampCells, List.map, strConcat, String.data_append] at hd ⊢
      rw [hd]
      simp [interAmp, String.data_append]

theorem dropLast2_ampCells (acc : String) (l : List String) (hl : l ≠ []) :
    dropLast2 (acc ++ ampCells l) = (acc ++ interAmp l) ++ " " := by
  rw [interAmp_amp l hl]
  have h : acc ++ (interAmp l ++ " & ") = (acc ++ interAmp l) ++ " & " := by
    apply strExt
    simp [String.data_append]
  rw [h, dropLast2_append_sep]

/-! ### The indexed column loop walks the fields -/

theorem get_eq_head_drop {α : Type} (l : List α) (n : Nat) :
    l.get? n = (l.drop n).head? := by
  induction l generalizing n with
  | nil => cases n <;> rfl
  | cons a t ih =>
    cases n with
    | zero => rfl
    | succ m => exact ih m

theorem rowLoopIdx_eq_rowWalk (atof : String → Except String ℚ) (p : String) (ri : Nat)
    (line : List String) :
    ∀ (cols : List ColumnDescription) (coli : Nat) (acc : String),
      rowLoopIdx atof p ri line cols coli acc
        = rowWalk atof p ri cols (line.drop coli) coli acc := by
  intro cols
  induction cols with
  | nil =>
    intro coli acc
    rfl
  | cons c cs ih =>
    intro coli acc
    cases hd : line.drop coli with
    | nil =>
      have hg : line.get? coli = none := by rw [get_eq_head_drop, hd]; rfl
      simp only [rowLoopIdx, hg, rowWalk]
    | cons f fs =>
      have hg : line.get? coli = some f := by rw [get_eq_head_drop, hd]; rfl
      have hd2 : line.drop (coli + 1) = fs := by rw [← List.tail_drop, hd]; rfl
      cases hr : c.render with
      | false =>
        simp only [rowLoopIdx, hg, hr, Bool.not_false, if_pos, rowWalk]
        rw [ih (coli + 1) acc, hd2]
      | true =>
        simp only [rowLoopIdx, hg, hr, Bool.not_true, Bool.false_eq_true, if_false, rowWalk]
        cases hcv : convertField atof c f with
        | mk pr res =>
          cases res with
          | error e => rfl
          | ok s2 =>
            simp only []
            rw [ih (coli + 1) (acc ++ s2 ++ " & "), hd2]

/-! ### Success and failure of the row walk -/

theorem convertField_ok_of_total (atof : String → Except String ℚ)
    (hat : ∀ t, ∃ y, atof t = Except.ok y) (c : ColumnDescription) (v : String) :
    ∃ s, convertField atof c v = ([], Except.ok s) := by
  cases hn : c.numerical with
  | false => exact ⟨v, by simp [convertField, hn]⟩
  | true =>
    obtain ⟨y, hy⟩ := hat (if v = "" then "0.0" else v)
    exact ⟨formatFloat (round_sig y c.significant_digits), by simp [convertField, hn, hy]⟩

theorem rowWalk_ok_of_total (atof : String → Except String ℚ) (p : String) (ri : Nat)
    (hat : ∀ t, ∃ y, atof t = Except.ok y) :
    ∀ (cols : List ColumnDescription) (fields : List String) (coli : Nat) (acc : String),
      cols.length ≤ fields.length →
      ∃ out, rowWalk atof p ri cols fields coli acc = ([], Except.ok out) := by
  intro cols
  induction cols with
  | nil =>
    intro fields coli acc _
    exact ⟨_, rfl⟩
  | cons c cs ih =>
    intro fields coli acc hlen
    cases fields with
    | nil => simp at hlen
    | cons f fs =>
      have hlen2 : cs.length ≤ fs.length := by simpa using hlen
      cases hr : c.render with
      | false =>
        obtain ⟨out, hout⟩ := ih fs (coli + 1) acc hlen2
        exact ⟨out, by simp only [rowWalk, hr, Bool.not_false, if_pos]; exact hout⟩
      | true =>
        obtain ⟨s, hs⟩ := convertField_ok_of_total atof hat c f
        obtain ⟨out, hout⟩ := ih fs (coli + 1) (acc ++ s ++ " & ") hlen2
        refine ⟨out, ?_⟩
        simp only [rowWalk, hr, Bool.not_true, Bool.false_eq_true, if_false, hs, hout]
        simp

theorem rowWalk_short (atof : String → Except String ℚ) (p : String) (ri : Nat)
    (hat : ∀ t, ∃ y, atof t = Except.ok y) :
    ∀ (fields : List String) (cols : List ColumnDescription) (coli : Nat) (acc : String),
      fields.length < cols.length →
      rowWalk atof p ri cols fields coli acc
        = ([], Except.error (PyError.exception (missingMsg (coli + fields.length) ri p))) := by
  intro fields
  induction fields with
  | nil =>
    intro cols coli acc hlen
    cases cols with
    | nil => simp at hlen
    | cons c cs => rfl
  | cons f fs ih =>
    intro cols coli acc hlen
    cases cols with
    | nil => simp at hlen
    | cons c cs =>
      have hlen2 : fs.length < cs.length := by simpa using hlen
      have harith : coli + 1 + fs.length = coli + (f :: fs).length := by
        simp
        omega
      cases hr : c.render with
      | false =>
        simp only [rowWalk, hr, Bool.not_false, if_pos]
        rw [ih cs (coli + 1) acc hlen2, harith]
      | true =>
        obtain ⟨s, hs⟩ := convertField_ok_of_total atof hat c f
        simp only [rowWalk, hr, Bool.not_true, Bool.false_eq_true, if_false, hs]
        rw [ih cs (coli + 1) (acc ++ s ++ " & ") hlen2]
        simp [harith]

theorem rowsLoop_first_short (atof : String → Except String ℚ) (p : String)
    (cols : List ColumnDescription) (hat : ∀ t, ∃ y, atof t = Except.ok y)
    (records : List (List String)) :
    ∀ (i base : Nat) (li : List String),
      records.get? i = some li →
      (∀ j lj, j < i → records.get? j = some lj → cols.length ≤ lj.length) →
      li.length < cols.length →
      rowsLoop atof p cols records base
        = ([], Except.error (PyError.exception (missingMsg li.length (base + i) p))) := by
  induction records with
  | nil =>
    intro i base li hi
    simp at hi
  | cons l rest ih =>
    intro i base li hi hprev hshort
    cases i with
    | zero =>
      have hl : l = li := by
        have : some l = some li := hi
        injection this
      subst hl
      have hw := rowWalk_short atof p base hat l cols 0 "\t\t" hshort
      simp only [rowsLoop, rowLoopIdx_eq_rowWalk, List.drop_zero, hw]
      simp
    | succ i2 =>
      have hl : cols.length ≤ l.length := hprev 0 l (Nat.succ_pos i2) rfl
      obtain ⟨out, hout⟩ := rowWalk_ok_of_total atof p base hat cols l 0 "\t\t" hl
      have hrr := ih i2 (base + 1) li (by simpa using hi)
        (fun j lj hj hg => hprev (j + 1) lj (by omega) (by simpa using hg)) hshort
      simp only [rowsLoop, rowLoopIdx_eq_rowWalk, List.drop_zero, hout, hrr]
      have harith : base + 1 + i2 = base + (i2 + 1) := by omega
      simp [harith]

/-- C3: when a record is the first one shorter than the declared column
list and the locale parser succeeds on every field before the failure,
create_table raises the exception naming the first missing column position
(the length of the short record), the 0-indexed record index, and the csv
path; the check runs for every declared column position, the render flags
playing no part in it. -/
theorem create_table_short_row_error (atof : String → Except String ℚ)
    (td : TableDescription) (records : List (List String)) (i : Nat) (li : List String)
    (hat : ∀ t, ∃ y, atof t = Except.ok y)
    (hi : records.get? i = some li)
    (hprev : ∀ j lj, j < i → records.get? j = some lj →
      td.column_descriptions.length ≤ lj.length)
    (hshort : li.length < td.column_descriptions.length) :
    create_table atof td records false
      = ([], Except.error (PyError.exception (missingMsg li.length i td.path))) := by
  have h := rowsLoop_first_short atof td.path td.column_descriptions hat records i 0 li
    hi hprev hshort
  simp only [create_table, renderTable, h]
  simp

/-- Witness for C3: a one-field record against two declared columns, the
missing position being a column with render = false. -/
theorem create_table_short_row_error_witness :
    (([["a"]] : List (List String)).get? 0 = some ["a"] ∧
      (["a"] : List String).length <
        ([⟨"X", false, 3, true, true⟩, ⟨"Y", false, 3, true, false⟩]
          : List ColumnDescription).length) ∧
    create_table (fun _ => Except.ok 0)
      ⟨"t.csv", true, true, false,
        [⟨"X", false, 3, true, true⟩, ⟨"Y", false, 3, true, false⟩]⟩
      [["a"]] false
      = ([], Except.error (PyError.exception (missingMsg 1 0 "t.csv"))) :=
  ⟨⟨rfl, by decide⟩,
    create_table_short_row_error (fun _ => Except.ok 0) _ _ 0 ["a"]
      (fun _ => ⟨0, rfl⟩) rfl (fun j lj hj _ => absurd hj (Nat.not_lt_zero j)) (by decide)⟩

theorem rowWalk_verbatim (atof : String → Except String ℚ) (p : String) (ri : Nat) :
    ∀ (cols : List ColumnDescription) (fields : List String) (coli : Nat) (acc : String),
      (∀ c ∈ cols, c.render = true ∧ c.numerical = false) →
      cols.length ≤ fields.length →
      rowWalk atof p ri cols fields coli acc
        = ([], Except.ok (dropLast2 (acc ++ ampCells (fields.take cols.length)) ++ " \\\\ \n")) := by
  intro cols
  induction cols with
  | nil =>
    intro fields coli acc _ _
    have h : acc ++ ampCells ([] : List String) = acc := by
      apply strExt
      simp [ampCells, strConcat, String.data_append]
    simp only [rowWalk, List.length_nil, List.take_zero]
    rw [h]
  | cons c cs ih =>
    intro fields coli acc hre hlen
    obtain ⟨hr, hn⟩ := hre c (by simp)
    cases fields with
    | nil => simp at hlen
    | cons f fs =>
      have hlen2 : cs.length ≤ fs.length := by simpa using hlen
      have hcv : convertField atof c f = ([], Except.ok f) := by simp [convertField, hn]
      simp only [rowWalk, hr, Bool.not_true, Bool.false_eq_true, if_false, hcv]
      rw [ih fs (coli + 1) (acc ++ f ++ " & ") (fun c2 hc2 => hre c2 (by simp [hc2])) hlen2]
      have hstr : (acc ++ f ++ " & ") ++ ampCells (fs.take cs.length)
          = acc ++ ampCells ((f :: fs).take (cs.length + 1)) := by
        apply strExt
        simp [ampCells, strConcat, String.data_append]
      simp [hstr]

theorem rowsLoop_verbatim (atof : String → Except String ℚ) (p : String)
    (cols : List ColumnDescription)
    (hre : ∀ c ∈ cols, c.render = true ∧ c.numerical = false) (hcne : cols ≠ []) :
    ∀ (records : List (List String)) (base : Nat),
      (∀ r ∈ records, r.length = cols.length) →
      rowsLoop atof p cols records base
        = ([], Except.ok (strConcat
            (records.map (fun r => "\t\t" ++ interAmp r ++ "  \\\\ \n")))) := by
  intro records
  induction records with
  | nil =>
    intro base _
    rfl
  | cons r rest ih =>
    intro base hlen
    have hrl : r.length = cols.length := hlen r (by simp)
    have hw := rowWalk_verbatim atof p base cols r 0 "\t\t" hre (le_of_eq hrl.symm)
    have hrne : r ≠ [] := by
      intro h
      rw [h] at hrl
      exact hcne (List.length_eq_zero.mp hrl.symm)
    have htake : r.take cols.length = r := by
      rw [← hrl]
      exact List.take_length r
    have hrow : dropLast2 ("\t\t" ++ ampCells r) ++ " \\\\ \n"
        = "\t\t" ++ interAmp r ++ "  \\\\ \n" := by
      rw [dropLast2_ampCells _ r hrne]
      apply strExt
      simp [String.data_append]
    simp only [rowsLoop, rowLoopIdx_eq_rowWalk, List.drop_zero, hw, htake]
    rw [ih (base + 1) (fun r2 h2 => hlen r2 (by simp [h2]))]
    simp [hrow, strConcat]

/-- C4: on a table all of whose columns have render = true and
numerical = false, and records each as long as the column list, create_table
succeeds and the rendered data rows consist of every raw csv field
verbatim, joined by " & " in the original column order within each record,
one row per record in record order. -/
theorem create_table_verbatim (atof : String → Except String ℚ)
    (td : TableDescription) (records : List (List String))
    (hre : ∀ c ∈ td.column_descriptions, c.render = true ∧ c.numerical = false)
    (hcne : td.column_descriptions ≠ [])
    (hlen : ∀ r ∈ records, r.length = td.column_descriptions.length) :
    create_table atof td records false
      = ([], Except.ok (tableTemplate (columnString td.column_descriptions)
          (headerString td.column_descriptions td.header_hline)
          (strConcat (records.map (fun r => "\t\t" ++ interAmp r ++ "  \\\\ \n")))
          (pyCaption td.path) (pyBasename td.path))) := by
  have h := rowsLoop_verbatim atof td.path td.column_descriptions hre hcne records 0 hlen
  simp only [create_table, renderTable, h]

/-- Witness for C4 on two textual columns and two records. -/
theorem create_table_verbatim_witness :
    ((∀ c ∈ ([⟨"P", false, 3, true, true⟩, ⟨"Q", false, 3, true, true⟩]
        : List ColumnDescription), c.render = true ∧ c.numerical = false) ∧
      (∀ r ∈ ([["x", "y"], ["u", "v"]] : List (List String)), r.length = 2)) ∧
    create_table atofDot
      ⟨"t.csv", true, true, false,
        [⟨"P", false, 3, true, true⟩, ⟨"Q", false, 3, true, true⟩]⟩
      [["x", "y"], ["u", "v"]] false
      = ([], Except.ok (tableTemplate
          (columnString [⟨"P", false, 3, true, true⟩, ⟨"Q", false, 3, true, true⟩])
          (headerString [⟨"P", false, 3, true, true⟩, ⟨"Q", false, 3, true, true⟩] true)
          (strConcat ((([["x", "y"], ["u", "v"]] : List (List String))).map
            (fun r => "\t\t" ++ interAmp r ++ "  \\\\ \n")))
          (pyCaption "t.csv") (pyBasename "t.csv"))) :=
  ⟨⟨by decide, by decide⟩,
    create_table_verbatim atofDot
      ⟨"t.csv", true, true, false,
        [⟨"P", false, 3, true, true⟩, ⟨"Q", false, 3, true, true⟩]⟩
      [["x", "y"], ["u", "v"]] (by decide) (by decide) (by decide)⟩

theorem headerCells_filter :
    ∀ (cols : List ColumnDescription) (acc : String),
      headerCells cols acc = headerCells (cols.filter (fun c => c.render)) acc := by
  intro cols
  induction cols with
  | nil => intro acc; rfl
  | cons c cs ih =>
    intro acc
    cases hr : c.render with
    | false =>
      have hfil : (c :: cs).filter (fun c2 => c2.render) = cs.filter (fun c2 => c2.render) := by
        simp [List.filter_cons, hr]
      rw [hfil]
      simp only [headerCells, hr, Bool.not_false, if_pos]
      exact ih acc
    | true =>
      have hfil : (c :: cs).filter (fun c2 => c2.render)
          = c :: cs.filter (fun c2 => c2.render) := by
        simp [List.filter_cons, hr]
      rw [hfil]
      simp only [headerCells, hr, Bool.not_true, Bool.false_eq_true, if_false]
      exact ih (acc ++ c.label ++ " & ")

theorem colCountRendered_filter (cols : List ColumnDescription) :
    colCountRendered cols = (cols.filter (fun c => c.render)).length := by
  induction cols with
  | nil => rfl
  | cons c cs ih =>
    cases hr : c.render with
    | false => simp [colCountRendered, hr, List.filter_cons, ih]
    | true =>
      simp [colCountRendered, hr, List.filter_cons, ih]
      omega

theorem rowWalk_filter (atof : String → Except String ℚ) (p : String) (ri : Nat) :
    ∀ (cols : List ColumnDescription) (fields : List String) (i j : Nat) (acc : String),
      cols.length ≤ fields.length →
      rowWalk atof p ri cols fields i acc
        = rowWalk atof p ri (cols.filter (fun c => c.render))
            (selectRendered cols fields) j acc := by
  intro cols
  induction cols with
  | nil =>
    intro fields i j acc _
    rfl
  | cons c cs ih =>
    intro fields i j acc hlen
    cases fields with
    | nil => simp at hlen
    | cons f fs =>
      have hlen2 : cs.length ≤ fs.length := by simpa using hlen
      cases hr : c.render with
      | false =>
        have hsel : selectRendered (c :: cs) (f :: fs) = selectRendered cs fs := by
          simp [selectRendered, hr]
        have hfil : (c :: cs).filter (fun c2 => c2.render)
            = cs.filter (fun c2 => c2.render) := by
          simp [List.filter_cons, hr]
        rw [hfil, hsel]
        simp only [rowWalk, hr, Bool.not_false, if_pos]
        exact ih fs (i + 1) j acc hlen2
      | true =>
        have hsel : selectRendered (c :: cs) (f :: fs) = f :: selectRendered cs fs := by
          simp [selectRendered, hr]
        have hfil : (c :: cs).filter (fun c2 => c2.render)
            = c :: cs.filter (fun c2 => c2.render) := by
          simp [List.filter_cons, hr]
        rw [hfil, hsel]
        simp only [rowWalk, hr, Bool.not_true, Bool.false_eq_true, if_false]
        cases hcv : convertField atof c f with
        | mk pr res =>
          cases res with
          | error e => rfl
          | ok s2 =>
            simp only []
            rw [ih fs (i + 1) (j + 1) (acc ++ s2 ++ " & ") hlen2]

/-- C5: a column with render = false contributes nothing: the header cells,
the alignment specification and the rendered-column count coincide with
those of the column list restricted to its rendered columns, and on any
record long enough the data-row loop produces exactly what the rendered
columns produce on the fields at rendered positions, so the alignment
specification carries one "|l" per rendered column plus the final "|". -/
theorem render_false_invisible (atof : String → Except String ℚ) (p : String) (ri : Nat)
    (cols : List ColumnDescription) (hh : Bool) (line : List String)
    (hlen : cols.length ≤ line.length) :
    headerString cols hh = headerString (cols.filter (fun c => c.render)) hh ∧
    columnString cols = columnString (cols.filter (fun c => c.render)) ∧
    colCountRendered cols = (cols.filter (fun c => c.render)).length ∧
    rowLoopIdx atof p ri line cols 0 "\t\t"
      = rowLoopIdx atof p ri (selectRendered cols line)
          (cols.filter (fun c => c.render)) 0 "\t\t" := by
  refine ⟨?_, ?_, colCountRendered_filter cols, ?_⟩
  · unfold headerString
    rw [headerCells_filter]
  · unfold columnString
    rw [colCountRendered_filter, colCountRendered_filter]
    congr 2
    simp [List.filter_filter]
  · rw [rowLoopIdx_eq_rowWalk, rowLoopIdx_eq_rowWalk, List.drop_zero, List.drop_zero]
    exact rowWalk_filter atof p ri cols line 0 0 "\t\t" hlen

/-- Witness for C5 on a three-column list whose middle column has
render = false. -/
theorem render_false_invisible_witness :
    (([⟨"A", false, 3, true, true⟩, ⟨"H", false, 3, true, false⟩,
        ⟨"B", false, 3, true, true⟩] : List ColumnDescription).length
      ≤ (["x", "y", "z"] : List String).length) ∧
    (headerString [⟨"A", false, 3, true, true⟩, ⟨"H", false, 3, true, false⟩,
        ⟨"B", false, 3, true, true⟩] true
      = headerString (([⟨"A", false, 3, true, true⟩, ⟨"H", false, 3, true, false⟩,
          ⟨"B", false, 3, true, true⟩] : List ColumnDescription).filter
            (fun c => c.render)) true ∧
     columnString [⟨"A", false, 3, true, true⟩, ⟨"H", false, 3, true, false⟩,
        ⟨"B", false, 3, true, true⟩]
      = columnString (([⟨"A", false, 3, true, true⟩, ⟨"H", false, 3, true, false⟩,
          ⟨"B", false, 3, true, true⟩] : List ColumnDescription).filter
            (fun c => c.render)) ∧
     colCountRendered [⟨"A", false, 3, true, true⟩, ⟨"H", false, 3, true, false⟩,
        ⟨"B", false, 3, true, true⟩]
      = (([⟨"A", false, 3, true, true⟩, ⟨"H", false, 3, true, false⟩,
          ⟨"B", false, 3, true, true⟩] : List ColumnDescription).filter
            (fun c => c.render)).length ∧
     rowLoopIdx atofDot "t.csv" 0 ["x", "y", "z"]
        [⟨"A", false, 3, true, true⟩, ⟨"H", false, 3, true, false⟩,
          ⟨"B", false, 3, true, true⟩] 0 "\t\t"
      = rowLoopIdx atofDot "t.csv" 0
          (selectRendered [⟨"A", false, 3, true, true⟩, ⟨"H", false, 3, true, false⟩,
            ⟨"B", false, 3, true, true⟩] ["x", "y", "z"])
          (([⟨"A", false, 3, true, true⟩, ⟨"H", false, 3, true, false⟩,
            ⟨"B", false, 3, true, true⟩] : List ColumnDescription).filter
              (fun c => c.render)) 0 "\t\t") :=
  ⟨by decide,
    render_false_invisible atofDot "t.csv" 0
      [⟨"A", false, 3, true, true⟩, ⟨"H", false, 3, true, false⟩,
        ⟨"B", false, 3, true, true⟩] true ["x", "y", "z"] (by decide)⟩

/-- C7, counterexample: a conversion failure prints the offending raw value
but the raised exception is the parse error alone: on the concrete table it
contains neither the file path "data.csv" nor the row index "0", so the
surfaced fatal error does not include the file path and row index as
claimed. -/
theorem conversion_error_lacks_context_counterexample :
    create_table atofDot ⟨"data.csv", true, true, false, [⟨"A", true, 3, true, true⟩]⟩
        [["abc"]] false
      = (["Offending value: abc"],
         Except.error (PyError.exception "could not convert string to float: \x27abc\x27")) ∧
    ¬ List.IsInfix "data.csv".data
        "could not convert string to float: \x27abc\x27".data ∧
    ¬ List.IsInfix "0".data
        "could not convert string to float: \x27abc\x27".data :=
  ⟨rfl, by decide, by decide⟩

/-- C7, amended: a conversion failure aborts the cell loop with the
offending value printed and exactly the parse error of the locale parser as
the raised exception (carrying no path or row context), and a failing
record loop aborts create_table with that same error and no table output. -/
theorem conversion_error_reporting :
    (∀ (atof : String → Except String ℚ) (c : ColumnDescription) (v : String)
        (pr : List String) (e : PyError), c.numerical = true →
      convertField atof c v = (pr, Except.error e) →
      ∃ msg, pr = ["Offending value: " ++ (if v = "" then "0.0" else v)] ∧
        atof (if v = "" then "0.0" else v) = Except.error msg ∧
        e = PyError.exception msg) ∧
    (∀ (atof : String → Except String ℚ) (td : TableDescription)
        (records : List (List String)) (pr : List String) (e : PyError),
      rowsLoop atof td.path td.column_descriptions records 0 = (pr, Except.error e) →
      create_table atof td records false = (pr, Except.error e)) := by
  constructor
  · intro atof c v pr e hc hcv
    simp only [convertField, hc, if_true] at hcv
    cases hat : atof (if v = "" then "0.0" else v) with
    | ok y =>
      rw [hat] at hcv
      simp at hcv
    | error m =>
      rw [hat] at hcv
      simp only [Prod.mk.injEq] at hcv
      obtain ⟨h1, h2⟩ := hcv
      refine ⟨m, h1.symm, rfl, ?_⟩
      have := h2
      injection this with h3
      exact h3.symm ▸ rfl
  · intro atof td records pr e h
    simp only [create_table, renderTable, h]

/-- Witness for the amended C7 at the dot-locale parser and the raw value
"abc". -/
theorem conversion_error_reporting_witness :
    ((⟨"A", true, 3, true, true⟩ : ColumnDescription).numerical = true ∧
      convertField atofDot ⟨"A", true, 3, true, true⟩ "abc"
        = (["Offending value: abc"],
           Except.error (PyError.exception "could not convert string to float: \x27abc\x27"))) ∧
    ∃ msg, ["Offending value: abc"]
        = ["Offending value: " ++ (if "abc" = "" then "0.0" else "abc")] ∧
      atofDot (if "abc" = "" then "0.0" else "abc") = Except.error msg ∧
      PyError.exception "could not convert string to float: \x27abc\x27"
        = PyError.exception msg :=
  ⟨⟨rfl, rfl⟩,
    conversion_error_reporting.1 atofDot ⟨"A", true, 3, true, true⟩ "abc" _ _ rfl rfl⟩
